import Mathlib

/-!
Verification of the sandboxed code-evaluation engine
(`backend/app/ai/evaluator/code_runner.py`).

The pure logic of the engine is embedded shallowly:

* Python string primitives used by the engine (`strip`, `split`, `lower`,
  substring containment, slicing, `or`-coalescing) are modelled on Lean
  strings; whitespace is the ASCII whitespace set recognised by Python.
* `re.fullmatch` is modelled by a compiler from a pattern subset
  (literals, escaped literals, alternation, grouping and the `*`, `+`, `?`
  quantifiers) into Mathlib `RegularExpression`s, with pattern errors
  returned as `Except.error`, mirroring `re.error`.  Constructs outside
  the subset (character classes, anchors, `.`) are reported as errors by
  the model; none of the theorems below depend on them.
* The process supervisor `_run_with_output_limit` and its `_reader` drain
  loop are modelled over the sequence of chunks each stream delivers,
  with the wall-clock wait outcome an explicit parameter.
* The harness `run_code_tests` is modelled with the per-spawn process
  outcome supplied by an oracle `outs : Nat → RunOutcome`; the j-th
  process spawned during an evaluation receives outcome `outs j`.
-/

namespace CodeRunner

/-- The three languages accepted by the engine (`Language` literal type). -/
inductive Language
  | python
  | javascript
  | java
deriving DecidableEq, Repr

/-- `security_mode` literal type. -/
inductive SecurityMode
  | warn
  | block
deriving DecidableEq, Repr

/-- ASCII whitespace as recognised by Python `str.strip` / `str.split`. -/
def isPySpace (c : Char) : Bool :=
  c = ' ' || c = '\t' || c = '\n' || c = '\x0b' || c = '\x0c' || c = '\r'

def notSpace (c : Char) : Bool := !(isPySpace c)

/-- Python `str.strip()` on a character list. -/
def pyStripL (l : List Char) : List Char :=
  ((l.dropWhile isPySpace).reverse.dropWhile isPySpace).reverse

/-- Python `str.strip()`. -/
def pyStrip (s : String) : String := String.mk (pyStripL s.data)

/-- Python `str.split()` (split on whitespace runs, dropping empties). -/
def pyWords : List Char → List (List Char)
  | [] => []
  | c :: cs =>
    if isPySpace c then pyWords cs
    else (c :: cs.takeWhile notSpace) :: pyWords (cs.dropWhile notSpace)
termination_by l => l.length
decreasing_by
  · simp only [List.length_cons]
    exact Nat.lt_succ_of_le (Nat.le_refl _)
  · simp only [List.length_cons]
    exact Nat.lt_succ_of_le (List.dropWhile_sublist notSpace).length_le

/-- Python `" ".join(words)` on character lists. -/
def unwordsL : List (List Char) → List Char
  | [] => []
  | [w] => w
  | w :: ws => w ++ ' ' :: unwordsL ws

/-- Python `str.lower()` (ASCII adequacy suffices for the engine's inputs). -/
def pyLower (s : String) : String := String.mk (s.data.map Char.toLower)

/-- `needle in hay` for character lists (Python substring containment). -/
def isSubstringL (needle : List Char) : List Char → Bool
  | [] => needle.isEmpty
  | c :: t => needle.isPrefixOf (c :: t) || isSubstringL needle t

/-- Python `needle in hay` on strings. -/
def isSubstring (needle hay : String) : Bool := isSubstringL needle.data hay.data

/-- Python string `or`: first operand unless it is empty (falsy). -/
def pyOr (a b : String) : String := if a = "" then b else a

/-- Single-quote character, used by the (simplified) model of `repr`. -/
def sq : String := String.singleton (Char.ofNat 39)

/-- Simplified model of Python `repr` on strings (quoting, no escaping). -/
def pyRepr (s : String) : String := sq ++ s ++ sq

/-- UTF-8 byte length, the model of `len(text.encode("utf-8"))`. -/
def utf8Len (s : String) : Nat := (s.data.map Char.utf8Size).sum

/-- Python `code.split("\n")`. -/
def pySplitLines (s : String) : List String := s.splitOn "\n"

/-- `_check_code_quality`: static warnings for Python submissions.
`count(x) > 0` in the source is modelled as substring containment,
to which it is equivalent. -/
def _check_code_quality (code : String) (language : Language) : List String :=
  if language = Language.python then
    (if code.length > 50000 then ["Code is very long (>50K chars)"] else []) ++
    (if isSubstring "import os" code || isSubstring "import subprocess" code then
      ["Warning: Potentially unsafe imports detected"] else []) ++
    (if isSubstring "eval(" code || isSubstring "exec(" code then
      ["Warning: Dynamic code execution detected"] else []) ++
    (let n := (pySplitLines code).length
     if n > 1000 then
      ["Code has " ++ toString n ++ " lines (consider breaking into functions)"] else [])
  else []

/-- `_normalize_output`: strip, then collapse whitespace runs to single
spaces when `normalize_whitespace` is set. -/
def _normalize_output (text : String) (normalize_whitespace : Bool) : String :=
  let t := pyStrip text
  if normalize_whitespace then String.mk (unwordsL (pyWords t.data)) else t

abbrev RE := RegularExpression Char

/-- Quantifier characters of the modelled pattern subset. -/
def isQuantChar (c : Char) : Bool := c = '*' || c = '+' || c = '?'

/-- Metacharacters whose constructs the regex model does not interpret
(character classes, anchors, `.`, counted repetition). -/
def isUnsupportedMeta (c : Char) : Bool :=
  c = '.' || c = '^' || c = '$' || c = '[' || c = ']' ||
  c = Char.ofNat 123 || c = Char.ofNat 125

mutual

/-- Parse an alternation (`a|b|c`). -/
def parseAlt : Nat → List Char → Except String (RE × List Char)
  | 0, _ => Except.error "pattern too deeply nested"
  | fuel + 1, l => do
    let (r, rest) ← parseSeqAux fuel none l
    match rest with
    | '|' :: rest2 => do
      let (r2, rest3) ← parseAlt fuel rest2
      pure (RegularExpression.plus r r2, rest3)
    | _ => pure (r, rest)

/-- Parse a (possibly empty) concatenation of quantified atoms. -/
def parseSeqAux : Nat → Option RE → List Char → Except String (RE × List Char)
  | 0, _, _ => Except.error "pattern too deeply nested"
  | fuel + 1, acc, l =>
    match l with
    | [] => pure (acc.getD RegularExpression.epsilon, [])
    | c :: _ =>
      if c = '|' || c = ')' then pure (acc.getD RegularExpression.epsilon, l)
      else if isQuantChar c then
        Except.error (if acc.isSome then "multiple repeat" else "nothing to repeat")
      else do
        let (a, rest2) ← parseQuantified fuel l
        parseSeqAux fuel
          (some (match acc with | none => a | some b => RegularExpression.comp b a)) rest2

/-- Parse one atom followed by at most one quantifier. -/
def parseQuantified : Nat → List Char → Except String (RE × List Char)
  | 0, _ => Except.error "pattern too deeply nested"
  | fuel + 1, l => do
    let (a, rest) ← parseAtom fuel l
    match rest with
    | '*' :: rest2 => pure (RegularExpression.star a, rest2)
    | '+' :: rest2 => pure (RegularExpression.comp a (RegularExpression.star a), rest2)
    | '?' :: rest2 => pure (RegularExpression.plus RegularExpression.epsilon a, rest2)
    | _ => pure (a, rest)

/-- Parse one atom: group, escaped literal, or literal character. -/
def parseAtom : Nat → List Char → Except String (RE × List Char)
  | 0, _ => Except.error "pattern too deeply nested"
  | fuel + 1, l =>
    match l with
    | [] => Except.error "internal parse error"
    | '(' :: rest => do
      let (r, rest2) ← parseAlt fuel rest
      match rest2 with
      | ')' :: rest3 => pure (r, rest3)
      | _ => Except.error "missing ), unterminated subpattern"
    | '\\' :: [] => Except.error "bad escape (end of pattern)"
    | '\\' :: c :: rest =>
      if c.isAlphanum then Except.error "bad escape or unsupported escape class"
      else pure (RegularExpression.char c, rest)
    | c :: rest =>
      if isUnsupportedMeta c then Except.error "unsupported construct in regex model"
      else pure (RegularExpression.char c, rest)

end

/-- Model of `re.compile(pattern)`: `ok` a regular expression, or `error`
a diagnostic (mirroring `re.error`). -/
def pyRegexCompile (pattern : String) : Except String RE :=
  match parseAlt (4 * pattern.length + 8) pattern.data with
  | Except.ok (r, []) => Except.ok r
  | Except.ok (_, _ :: _) => Except.error "unbalanced parenthesis"
  | Except.error e => Except.error e

/-- Model of `re.fullmatch(pattern, s)`: `error` when the pattern does not
compile, otherwise whether the whole of `s` is in the pattern's language. -/
def pyRegexFullmatch (pattern s : String) : Except String Bool :=
  match pyRegexCompile pattern with
  | Except.error e => Except.error e
  | Except.ok r => Except.ok (r.rmatch s.data)

/-- `_compare_output`: compare outputs under a comparison mode, returning
`(matches, error_message)`.  Total: the `re.error` path of the source is
the `Except.error` branch here, so nothing is raised. -/
def _compare_output (actual expected : String) (comparison_mode : String) :
    Bool × Option String :=
  if comparison_mode = "exact" then
    if actual = expected then (true, none)
    else (false, some ("Expected " ++ pyRepr expected ++ ", got " ++ pyRepr actual))
  else if comparison_mode = "normalized" then
    if _normalize_output actual true = _normalize_output expected true then (true, none)
    else (false, some ("Expected " ++ pyRepr (_normalize_output expected true) ++ ", got " ++
      pyRepr (_normalize_output actual true)))
  else if comparison_mode = "regex" then
    match pyRegexFullmatch expected actual with
    | Except.ok true => (true, none)
    | Except.ok false =>
      (false, some ("Output " ++ pyRepr actual ++ " doesn" ++ sq ++ "t match pattern " ++
        pyRepr expected))
    | Except.error e => (false, some ("Invalid regex pattern: " ++ e))
  else if comparison_mode = "contains" then
    if isSubstring expected actual then (true, none)
    else (false, some ("Expected output to contain " ++ pyRepr expected ++ ", got " ++
      pyRepr actual))
  else
    (false, some ("Unknown comparison mode: " ++ comparison_mode))

/-- `subprocess.CompletedProcess` as returned by `_run_with_output_limit`. -/
structure CompletedProcess where
  returncode : Int
  stdout : String
  stderr : String
deriving DecidableEq, Repr

/-- Outcome of `proc.wait(timeout=...)`: normal exit with a code, or
`subprocess.TimeoutExpired`. -/
inductive WaitResult
  | exited (code : Int)
  | timedOut
deriving DecidableEq, Repr

/-- The `_reader` drain loop of `_run_with_output_limit`, as a function of
the sequence of chunks `stream.read(4096)` delivers.  `size` is the
running byte count for this stream.  Returns the chunks appended to
`chunks` and whether the `exceeded` flag was set by this loop.  An empty
chunk is end-of-stream (`if not data: break`).  When a chunk pushes the
running count over `maxOutputBytes`, the flag is set, the child is
killed, and the loop breaks BEFORE appending the chunk. -/
def readerLoop (maxOutputBytes : Nat) : List String → Nat → List String × Bool
  | [], _ => ([], false)
  | d :: rest, size =>
    if d = "" then ([], false)
    else if size + utf8Len d > maxOutputBytes then ([], true)
    else
      (d :: (readerLoop maxOutputBytes rest (size + utf8Len d)).1,
       (readerLoop maxOutputBytes rest (size + utf8Len d)).2)

/-- `_run_with_output_limit`: drain both streams, wait for the child
(`Except.error ()` models the re-raised `subprocess.TimeoutExpired`),
and return a synthetic 137 outcome when either stream exceeded the byte
ceiling.  `code` models `proc.returncode or 0` after a successful wait. -/
def _run_with_output_limit (stdoutChunks stderrChunks : List String)
    (wait : WaitResult) (maxOutputBytes : Nat) : Except Unit CompletedProcess :=
  let out := readerLoop maxOutputBytes stdoutChunks 0
  let err := readerLoop maxOutputBytes stderrChunks 0
  match wait with
  | WaitResult.timedOut => Except.error ()
  | WaitResult.exited code =>
    if out.2 || err.2 then
      Except.ok ⟨137, String.join out.1, "Output limit exceeded"⟩
    else
      Except.ok ⟨code, String.join out.1, String.join err.1⟩

/-- One test-case dictionary as consumed by `run_code_tests`.  `none`
models an absent key (`dict.get` default applies). -/
structure TestCase where
  input : String
  expected_output : String
  timeout_ms : Option Int
  comparison_mode : Option String
  points : Option Int
  description : Option String
deriving DecidableEq, Repr

/-- Outcome of one runner invocation (`_run_python_code` /
`_run_javascript_code` / `_run_java_code`): a completed process, a
`subprocess.TimeoutExpired`, or any other exception with its message. -/
inductive RunOutcome
  | completed (returncode : Int) (stdout stderr : String)
  | timedOut
  | raised (message : String)
deriving DecidableEq, Repr

/-- `_run_java_code`, at the level the harness observes it: a non-zero
`javac` exit raises `RuntimeError("Compilation failed: ...")` before the
program is run; otherwise the outcome is that of running the class. -/
def _run_java_code (compile_returncode : Int) (compile_stderr : String)
    (run : RunOutcome) : RunOutcome :=
  if compile_returncode = 0 then run
  else RunOutcome.raised ("Compilation failed: " ++ compile_stderr)

/-- One per-test-case result dictionary.  Absent keys are `none`. -/
structure TestResult where
  status : String
  case_number : Option Nat := none
  description : Option String := none
  points : Option Int := none
  output : Option String := none
  error : Option String := none
  expected : Option String := none
  actual : Option String := none
  stderr : Option String := none
deriving DecidableEq, Repr

/-- The report dictionary returned by `run_code_tests`. -/
structure Report where
  passed : Nat
  failed : Nat
  total_points : Int
  earned_points : Int
  errors : List String
  warnings : List String
  test_results : List TestResult
deriving DecidableEq, Repr

/-- The effective timeout of a case: its own `timeout_ms` when it is an
int and positive, else the submission-level default. -/
def effTimeout (timeout_ms : Int) (c : TestCase) : Int :=
  match c.timeout_ms with
  | some t => if t > 0 then t else timeout_ms
  | none => timeout_ms

/-- Everything one loop iteration of `run_code_tests` contributes: the
appended `TestCaseResult`, whether the case passed, its points value,
and the message appended to the report-level `errors` (if any). -/
structure CaseStep where
  result : TestResult
  isPassed : Bool
  pointsVal : Int
  errMsg : Option String
deriving DecidableEq, Repr

/-- The body of the `for i, case in enumerate(cases, start=1)` loop for
one case, given the runner outcome for that case. -/
def processCase (timeout_ms : Int) (i : Nat) (c : TestCase) (o : RunOutcome) : CaseStep :=
  let desc := c.description.getD ("Test case " ++ toString i)
  let points := c.points.getD 1
  let mode := c.comparison_mode.getD "exact"
  let timeout_used := effTimeout timeout_ms c
  let base : TestResult :=
    { status := "", case_number := some i, description := some desc, points := some points }
  match o with
  | RunOutcome.timedOut =>
    let timeoutText := "Timeout after " ++ toString timeout_used ++ "ms"
    let res := { base with status := "timeout", error := some timeoutText }
    { result := res, isPassed := false, pointsVal := points,
      errMsg := some ("Case " ++ toString i ++ " (" ++ desc ++ "): " ++ timeoutText) }
  | RunOutcome.raised m =>
    let res := { base with status := "error", error := some (m.take 500) }
    { result := res, isPassed := false, pointsVal := points,
      errMsg := some ("Case " ++ toString i ++ " (" ++ desc ++ "): " ++ m.take 500) }
  | RunOutcome.completed rc out err =>
    if rc = 0 then
      let actual := pyStrip (pyOr out "")
      let cmp := _compare_output actual c.expected_output mode
      if cmp.1 then
        let res := { base with status := "passed", output := some (actual.take 500) }
        { result := res, isPassed := true, pointsVal := points, errMsg := none }
      else
        let res := { base with
          status := "failed", error := cmp.2,
          expected := some (c.expected_output.take 500),
          actual := some (actual.take 500) }
        { result := res, isPassed := false, pointsVal := points,
          errMsg := some (("Case " ++ toString i ++ " (" ++ desc ++ "): " ++
            cmp.2.getD "None").take 500) }
    else
      let msg := pyStrip (pyOr err (pyOr out ""))
      let emsg := if msg = "" then "Runtime error" else msg.take 500
      let res := { base with
        status := "runtime_error", error := some emsg,
        stderr := if err = "" then none else some (err.take 500) }
      { result := res, isPassed := false, pointsVal := points,
        errMsg := some ("Case " ++ toString i ++ " (" ++ desc ++ "): " ++ emsg) }

/-- The mutable aggregation state of the test-case loop. -/
structure Agg where
  passed : Nat := 0
  failed : Nat := 0
  total_points : Int := 0
  earned_points : Int := 0
  errors : List String := []
  test_results : List TestResult := []
deriving DecidableEq, Repr

/-- Fold one case step into the aggregation state (the increments and
appends performed by one loop iteration). -/
def applyStep (acc : Agg) (st : CaseStep) : Agg :=
  { passed := acc.passed + (if st.isPassed then 1 else 0),
    failed := acc.failed + (if st.isPassed then 0 else 1),
    total_points := acc.total_points + st.pointsVal,
    earned_points := acc.earned_points + (if st.isPassed then st.pointsVal else 0),
    errors := acc.errors ++ st.errMsg.toList,
    test_results := acc.test_results ++ [st.result] }

/-- The test-case loop; `j` is the 0-based spawn index, so the case
number is `j + 1` and the runner outcome is `outs j`. -/
def runLoop (timeout_ms : Int) (outs : Nat → RunOutcome) :
    Nat → Agg → List TestCase → Agg
  | _, acc, [] => acc
  | j, acc, c :: rest =>
    runLoop timeout_ms outs (j + 1)
      (applyStep acc (processCase timeout_ms (j + 1) c (outs j))) rest

/-- The security gate of `run_code_tests`: block-mode plus a quality
warning mentioning "unsafe" or "dynamic" (case-insensitively). -/
def securityGate (code : String) (language : Language)
    (enable_quality_checks : Bool) (security_mode : SecurityMode) : Bool :=
  let warnings := if enable_quality_checks then _check_code_quality code language else []
  (if security_mode = SecurityMode.block then
    warnings.any (fun w => isSubstring "unsafe" (pyLower w) || isSubstring "dynamic" (pyLower w))
  else false)

/-- The run-once path of `run_code_tests` taken when no test cases were
supplied, given the outcome of the single program run. -/
def runOnce (warnings : List String) (o : RunOutcome) : Report :=
  match o with
  | RunOutcome.timedOut =>
    let res : TestResult := { status := "timeout", error := some "Execution timeout" }
    { passed := 0, failed := 1, total_points := 1, earned_points := 0,
      errors := ["Execution timeout"], warnings := warnings, test_results := [res] }
  | RunOutcome.raised m =>
    let res : TestResult := { status := "error", error := some (m.take 500) }
    { passed := 0, failed := 1, total_points := 1, earned_points := 0,
      errors := [m.take 500], warnings := warnings, test_results := [res] }
  | RunOutcome.completed rc out err =>
    if rc = 0 then
      let res : TestResult := { status := "passed", output := some out }
      { passed := 1, failed := 0, total_points := 1, earned_points := 1,
        errors := [], warnings := warnings, test_results := [res] }
    else
      let msg := pyStrip (pyOr err (pyOr out ""))
      let emsg := if msg = "" then "Runtime error" else msg
      let res : TestResult := { status := "failed", error := some emsg }
      { passed := 0, failed := 1, total_points := 1, earned_points := 0,
        errors := [emsg], warnings := warnings, test_results := [res] }

/-- `run_code_tests`: quality checks, the security gate, then either the
single pseudo-run (no test cases) or the per-case loop.  `outs j` is the
outcome of the j-th runner invocation of this evaluation.  The
`Language` enum makes the "Language not supported" branch of the source
unreachable, as the source's `Literal` type intends. -/
def run_code_tests (code : String) (language : Language) (test_cases : List TestCase)
    (timeout_ms : Int) (enable_quality_checks : Bool) (security_mode : SecurityMode)
    (outs : Nat → RunOutcome) : Report :=
  let warnings := if enable_quality_checks then _check_code_quality code language else []
  if securityGate code language enable_quality_checks security_mode then
    { passed := 0, failed := 0, total_points := 0, earned_points := 0,
      errors := ["Blocked by security policy"], warnings := warnings, test_results := [] }
  else
    match test_cases with
    | [] => runOnce warnings (outs 0)
    | c :: rest =>
      let agg := runLoop timeout_ms outs 0 {} (c :: rest)
      { passed := agg.passed, failed := agg.failed, total_points := agg.total_points,
        earned_points := agg.earned_points, errors := agg.errors, warnings := warnings,
        test_results := agg.test_results }

/-- The list of case steps the loop performs, starting at spawn index
`j`; the closed form of `runLoop` is expressed with it. -/
def stepsOf (timeout_ms : Int) (outs : Nat → RunOutcome) : Nat → List TestCase → List CaseStep
  | _, [] => []
  | j, c :: rest =>
    processCase timeout_ms (j + 1) c (outs j) :: stepsOf timeout_ms outs (j + 1) rest

/-- A list of words is `GoodWords` when each word is nonempty and free of
whitespace; `pyWords` only produces such lists. -/
def GoodWords (ws : List (List Char)) : Prop :=
  ∀ w ∈ ws, w ≠ [] ∧ ∀ c ∈ w, isPySpace c = false

/-- A minimal test-case dictionary: only `expected_output` is set, every
other key is absent (so the `dict.get` defaults apply). -/
def sampleCase (expected : String) : TestCase :=
  { input := "", expected_output := expected, timeout_ms := none,
    comparison_mode := none, points := none, description := none }

theorem str_append_ne_empty_left (a b : String) (h : a ≠ "") : a ++ b ≠ "" := by
  intro hc
  apply h
  have hd := congrArg String.data hc
  rw [String.data_append] at hd
  have h0 : ("" : String).data = [] := rfl
  rw [h0] at hd
  have ha : a.data = [] := (List.append_eq_nil.mp hd).1
  exact String.ext (ha.trans h0.symm)

theorem isPrefixOf_self (l : List Char) : l.isPrefixOf l = true := by
  induction l with
  | nil => rfl
  | cons c t ih => simp [List.isPrefixOf, ih]

theorem isSubstring_self (s : String) : isSubstring s s = true := by
  unfold isSubstring
  cases h : s.data with
  | nil => simp [isSubstringL]
  | cons c t => simp [isSubstringL, isPrefixOf_self]

/-- Every result of `_compare_output` is either a match with no message
or a non-match with a nonempty message. -/
theorem compare_output_shape (actual expected mode : String) :
    _compare_output actual expected mode = (true, none) ∨
    ∃ m, _compare_output actual expected mode = (false, some m) ∧ m ≠ "" := by
  unfold _compare_output
  split_ifs with h1 h2 h3 h4 h5 h6 <;>
    try first
      | exact Or.inl rfl
      | (refine Or.inr ⟨_, rfl, ?_⟩
         repeat apply str_append_ne_empty_left
         decide)
  cases hm : pyRegexFullmatch expected actual with
  | ok b =>
    cases b with
    | true =>
      simp [hm]
    | false =>
      simp only [hm]
      refine Or.inr ⟨_, rfl, ?_⟩
      repeat apply str_append_ne_empty_left
      decide
  | error e =>
    simp only [hm]
    refine Or.inr ⟨_, rfl, ?_⟩
    apply str_append_ne_empty_left
    decide

/-- C9: for every pair of inputs and every comparison mode, the message
of `_compare_output` is `none` exactly when `matches` is `true`, and
every failure carries a nonempty diagnostic message. -/
theorem C9_message_iff_matches (actual expected mode : String) :
    ((_compare_output actual expected mode).2 = none ↔
      (_compare_output actual expected mode).1 = true) ∧
    ((_compare_output actual expected mode).1 = false →
      ∃ m, (_compare_output actual expected mode).2 = some m ∧ m ≠ "") := by
  rcases compare_output_shape actual expected mode with h | ⟨m, h, hm⟩ <;> rw [h]
  · simp
  · exact ⟨by simp, fun _ => ⟨m, rfl, hm⟩⟩

/-- C9 witness: at `actual = "a"`, `expected = "b"`, mode `exact`, the
comparison fails and carries a nonempty message. -/
theorem C9_message_iff_matches_witness :
    ((_compare_output "a" "b" "exact").2 = none ↔
      (_compare_output "a" "b" "exact").1 = true) ∧
    ((_compare_output "a" "b" "exact").1 = false →
      ∃ m, (_compare_output "a" "b" "exact").2 = some m ∧ m ≠ "") :=
  C9_message_iff_matches "a" "b" "exact"

/-- C4 counterexample: `"a+"` is a valid pattern (it compiles), yet
`compare("a+", "a+", regex)` does not match, because the pattern `a+`
denotes one or more `a`s and not the two-character string `a+`.  So
reflexivity fails for a valid regex pattern, contrary to the claim. -/
theorem C4_counterexample :
    (pyRegexCompile "a+").isOk = true ∧
    (_compare_output "a+" "a+" "regex").1 = false := by
  constructor
  · rfl
  · rfl

/-- C4 amended: `compare(x, x, mode)` matches for every string `x` under
the `exact`, `normalized` and `contains` modes; under `regex`,
reflexivity holds only when the pattern happens to match its own text,
which valid patterns (such as `a+`) need not do. -/
theorem C4_amended_reflexivity (x : String) :
    (_compare_output x x "exact").1 = true ∧
    (_compare_output x x "normalized").1 = true ∧
    (_compare_output x x "contains").1 = true := by
  refine ⟨?_, ?_, ?_⟩ <;>
    simp [_compare_output, isSubstring_self]

/-- C6: under mode `regex` the comparison matches exactly when the whole
`actual` string belongs to the language of the compiled `expected`
pattern (full match, not search), and every invalid pattern produces a
`(false, message)` failure with a nonempty diagnostic — the model is a
total function, so nothing is raised. -/
theorem compare_regex_eq (actual expected : String) :
    _compare_output actual expected "regex" =
      (match pyRegexFullmatch expected actual with
       | Except.ok true => (true, none)
       | Except.ok false =>
         (false, some ("Output " ++ pyRepr actual ++ " doesn" ++ sq ++ "t match pattern " ++
           pyRepr expected))
       | Except.error e => (false, some ("Invalid regex pattern: " ++ e))) := rfl

theorem C6_regex_full_match_and_invalid (actual expected : String) :
    (∀ r : RE, pyRegexCompile expected = Except.ok r →
      ((_compare_output actual expected "regex").1 = true ↔ actual.data ∈ r.matches')) ∧
    (∀ e, pyRegexCompile expected = Except.error e →
      _compare_output actual expected "regex" =
        (false, some ("Invalid regex pattern: " ++ e)) ∧
      "Invalid regex pattern: " ++ e ≠ "") := by
  constructor
  · intro r hr
    have hf : pyRegexFullmatch expected actual = Except.ok (r.rmatch actual.data) := by
      unfold pyRegexFullmatch
      rw [hr]
    rw [compare_regex_eq, hf]
    cases hb : r.rmatch actual.data with
    | true =>
      exact ⟨fun _ => (RegularExpression.rmatch_iff_matches' r actual.data).mp hb,
        fun _ => rfl⟩
    | false =>
      constructor
      · intro h
        exact Bool.noConfusion h
      · intro hmem
        have hb2 := (RegularExpression.rmatch_iff_matches' r actual.data).mpr hmem
        rw [hb] at hb2
        exact Bool.noConfusion hb2
  · intro e he
    have hf : pyRegexFullmatch expected actual = Except.error e := by
      unfold pyRegexFullmatch
      rw [he]
    rw [compare_regex_eq, hf]
    exact ⟨rfl, str_append_ne_empty_left _ _ (by decide)⟩

/-- C6 witness: the pattern `a` occurs inside `ab` but does not
full-match it, and the invalid pattern `(` yields the diagnostic
failure. -/
theorem C6_regex_full_match_and_invalid_witness :
    ((_compare_output "ab" "a" "regex").1 = true ↔
      "ab".data ∈ (RegularExpression.char 'a' : RE).matches') ∧
    (_compare_output "ab" "(" "regex" =
      (false, some ("Invalid regex pattern: " ++ "missing ), unterminated subpattern")) ∧
     "Invalid regex pattern: " ++ "missing ), unterminated subpattern" ≠ "") := by
  constructor
  · exact (C6_regex_full_match_and_invalid "ab" "a").1 (RegularExpression.char 'a') rfl
  · exact (C6_regex_full_match_and_invalid "ab" "(").2 "missing ), unterminated subpattern" rfl

theorem notSpace_eq (c : Char) : notSpace c = !(isPySpace c) := rfl

theorem pyWords_good (l : List Char) : GoodWords (pyWords l) := by
  induction l using pyWords.induct with
  | case1 =>
    intro w hw
    simp [pyWords] at hw
  | case2 c cs h ih =>
    intro w hw
    rw [pyWords, if_pos h] at hw
    exact ih w hw
  | case3 c cs h ih =>
    intro w hw
    rw [pyWords, if_neg h] at hw
    rcases List.mem_cons.mp hw with rfl | hw2
    · refine ⟨List.cons_ne_nil _ _, ?_⟩
      intro x hx
      rcases List.mem_cons.mp hx with rfl | hx2
      · exact Bool.not_eq_true _ ▸ (by simpa using h)
      · have := List.mem_takeWhile_imp hx2
        rw [notSpace_eq] at this
        simpa using this
    · exact ih w hw2

theorem takeWhile_all : ∀ l : List Char, (∀ c ∈ l, notSpace c = true) →
    l.takeWhile notSpace = l
  | [], _ => rfl
  | c :: t, h => by
    have hc : notSpace c = true := h c (List.mem_cons_self c t)
    simp only [List.takeWhile_cons, hc, if_true]
    rw [takeWhile_all t (fun x hx => h x (List.mem_cons_of_mem c hx))]

theorem dropWhile_all : ∀ l : List Char, (∀ c ∈ l, notSpace c = true) →
    l.dropWhile notSpace = []
  | [], _ => rfl
  | c :: t, h => by
    have hc : notSpace c = true := h c (List.mem_cons_self c t)
    simp only [List.dropWhile_cons, hc, if_true]
    exact dropWhile_all t (fun x hx => h x (List.mem_cons_of_mem c hx))

theorem takeWhile_stop : ∀ (w r : List Char), (∀ c ∈ w, notSpace c = true) →
    (w ++ ' ' :: r).takeWhile notSpace = w
  | [], r, _ => by
    have : notSpace ' ' = false := rfl
    simp [List.takeWhile_cons, this]
  | c :: t, r, h => by
    have hc : notSpace c = true := h c (List.mem_cons_self c t)
    simp only [List.cons_append, List.takeWhile_cons, hc, if_true]
    rw [takeWhile_stop t r (fun x hx => h x (List.mem_cons_of_mem c hx))]

theorem dropWhile_stop : ∀ (w r : List Char), (∀ c ∈ w, notSpace c = true) →
    (w ++ ' ' :: r).dropWhile notSpace = ' ' :: r
  | [], r, _ => by
    have : notSpace ' ' = false := rfl
    simp [List.dropWhile_cons, this]
  | c :: t, r, h => by
    have hc : notSpace c = true := h c (List.mem_cons_self c t)
    simp only [List.cons_append, List.dropWhile_cons, hc, if_true]
    exact dropWhile_stop t r (fun x hx => h x (List.mem_cons_of_mem c hx))

theorem unwords_head (ws : List (List Char)) (hg : GoodWords ws) (hne : ws ≠ []) :
    ∃ c t, unwordsL ws = c :: t ∧ isPySpace c = false := by
  match ws with
  | [] => exact absurd rfl hne
  | [w] =>
    obtain ⟨hwne, hwch⟩ := hg w (List.mem_cons_self w [])
    match w, hwne with
    | c :: t, _ =>
      exact ⟨c, t, rfl, hwch c (List.mem_cons_self c t)⟩
  | w :: w2 :: rest =>
    obtain ⟨hwne, hwch⟩ := hg w (List.mem_cons_self w (w2 :: rest))
    match w, hwne with
    | c :: t, _ =>
      exact ⟨c, t ++ ' ' :: unwordsL (w2 :: rest), rfl,
        hwch c (List.mem_cons_self c t)⟩

theorem unwords_rev_head (ws : List (List Char)) (hg : GoodWords ws) (hne : ws ≠ []) :
    ∃ c t, (unwordsL ws).reverse = c :: t ∧ isPySpace c = false := by
  match ws with
  | [] => exact absurd rfl hne
  | [w] =>
    obtain ⟨hwne, hwch⟩ := hg w (List.mem_cons_self w [])
    match hr : w.reverse with
    | [] => exact absurd (List.reverse_eq_nil_iff.mp hr) hwne
    | c :: t =>
      have hc : c ∈ w := by
        rw [← List.mem_reverse, hr]
        exact List.mem_cons_self c t
      exact ⟨c, t, rfl, hwch c hc⟩
  | w :: w2 :: rest =>
    have hg2 : GoodWords (w2 :: rest) := fun x hx => hg x (List.mem_cons_of_mem w hx)
    obtain ⟨c, t, hct, hc⟩ := unwords_rev_head (w2 :: rest) hg2 (List.cons_ne_nil _ _)
    refine ⟨c, t ++ ' ' :: w.reverse, ?_, hc⟩
    have h1 : unwordsL (w :: w2 :: rest) = w ++ ' ' :: unwordsL (w2 :: rest) := rfl
    rw [h1, List.reverse_append, List.reverse_cons, hct]
    simp [List.append_assoc]

theorem pyStripL_unwords (ws : List (List Char)) (hg : GoodWords ws) :
    pyStripL (unwordsL ws) = unwordsL ws := by
  match ws with
  | [] => rfl
  | w :: rest =>
    obtain ⟨c, t, hct, hc⟩ := unwords_head (w :: rest) hg (List.cons_ne_nil _ _)
    obtain ⟨c2, t2, hct2, hc2⟩ := unwords_rev_head (w :: rest) hg (List.cons_ne_nil _ _)
    unfold pyStripL
    rw [hct, List.dropWhile_cons_of_neg (by simp [hc]), ← hct, hct2,
      List.dropWhile_cons_of_neg (by simp [hc2]), ← hct2, List.reverse_reverse]

theorem pyWords_unwords : ∀ ws : List (List Char), GoodWords ws →
    pyWords (unwordsL ws) = ws
  | [], _ => by simp [unwordsL, pyWords]
  | [w], hg => by
    obtain ⟨hwne, hwch⟩ := hg w (List.mem_cons_self w [])
    have hns : ∀ c ∈ w, notSpace c = true := by
      intro c hcw
      rw [notSpace_eq, hwch c hcw]
      rfl
    match w, hwne, hns with
    | c :: t, _, hns =>
      have hc : isPySpace c = false := by
        have := hns c (List.mem_cons_self c t)
        rw [notSpace_eq] at this
        simpa using this
      show pyWords (c :: t) = [c :: t]
      rw [pyWords, if_neg (by simp [hc])]
      rw [takeWhile_all t (fun x hx => hns x (List.mem_cons_of_mem c hx)),
        dropWhile_all t (fun x hx => hns x (List.mem_cons_of_mem c hx))]
      simp [pyWords]
  | w :: w2 :: rest, hg => by
    obtain ⟨hwne, hwch⟩ := hg w (List.mem_cons_self w (w2 :: rest))
    have hg2 : GoodWords (w2 :: rest) := fun x hx => hg x (List.mem_cons_of_mem w hx)
    have hns : ∀ c ∈ w, notSpace c = true := by
      intro c hcw
      rw [notSpace_eq, hwch c hcw]
      rfl
    match w, hwne, hns with
    | c :: t, _, hns =>
      have hc : isPySpace c = false := by
        have := hns c (List.mem_cons_self c t)
        rw [notSpace_eq] at this
        simpa using this
      have htail : ∀ x ∈ t, notSpace x = true :=
        fun x hx => hns x (List.mem_cons_of_mem c hx)
      show pyWords ((c :: t) ++ ' ' :: unwordsL (w2 :: rest)) = (c :: t) :: w2 :: rest
      rw [List.cons_append, pyWords, if_neg (by simp [hc])]
      rw [takeWhile_stop t _ htail, dropWhile_stop t _ htail]
      have hsp : isPySpace ' ' = true := rfl
      rw [pyWords, if_pos hsp]
      rw [pyWords_unwords (w2 :: rest) hg2]

/-- C7: the normalization used by the `normalized` comparison mode is
idempotent: `_normalize_output` applied twice equals it applied once. -/
theorem C7_normalize_idempotent (x : String) :
    _normalize_output (_normalize_output x true) true = _normalize_output x true := by
  unfold _normalize_output pyStrip
  simp only [if_true]
  rw [pyStripL_unwords _ (pyWords_good _), pyWords_unwords _ (pyWords_good _)]

theorem utf8Len_append (a b : String) : utf8Len (a ++ b) = utf8Len a + utf8Len b := by
  unfold utf8Len
  rw [String.data_append, List.map_append, List.sum_append]

theorem utf8Len_foldl (l : List String) : ∀ a : String,
    utf8Len (l.foldl (· ++ ·) a) = utf8Len a + (l.map utf8Len).sum := by
  induction l with
  | nil => intro a; simp
  | cons c t ih =>
    intro a
    simp only [List.foldl_cons, List.map_cons, List.sum_cons, ih (a ++ c), utf8Len_append]
    omega

theorem utf8Len_join (l : List String) : utf8Len (String.join l) = (l.map utf8Len).sum := by
  unfold String.join
  rw [utf8Len_foldl]
  have h0 : utf8Len "" = 0 := rfl
  rw [h0, Nat.zero_add]

theorem rwol_exited (so se : List String) (c : Int) (maxB : Nat) :
    _run_with_output_limit so se (WaitResult.exited c) maxB =
      (if (readerLoop maxB so 0).2 || (readerLoop maxB se 0).2 then
        Except.ok ⟨137, String.join (readerLoop maxB so 0).1, "Output limit exceeded"⟩
      else
        Except.ok ⟨c, String.join (readerLoop maxB so 0).1,
          String.join (readerLoop maxB se 0).1⟩) := rfl

theorem readerLoop_bytes (maxB : Nat) : ∀ (chunks : List String) (size : Nat),
    size ≤ maxB → size + (((readerLoop maxB chunks size).1.map utf8Len).sum) ≤ maxB := by
  intro chunks
  induction chunks with
  | nil =>
    intro size h
    simpa [readerLoop] using h
  | cons d rest ih =>
    intro size h
    rw [readerLoop]
    split_ifs with h1 h2
    · simpa using h
    · simpa using h
    · have h3 : size + utf8Len d ≤ maxB := by omega
      have h4 := ih (size + utf8Len d) h3
      simp only [List.map_cons, List.sum_cons]
      omega

theorem readerLoop_prefix (maxB : Nat) : ∀ (chunks : List String) (size : Nat),
    (readerLoop maxB chunks size).1 <+: chunks := by
  intro chunks
  induction chunks with
  | nil =>
    intro size
    simp [readerLoop]
  | cons d rest ih =>
    intro size
    rw [readerLoop]
    split_ifs with h1 h2
    · exact List.nil_prefix
    · exact List.nil_prefix
    · exact List.cons_prefix_cons.mpr ⟨rfl, ih (size + utf8Len d)⟩

/-- C10: the captured text of each stream is at most `max_output_bytes`
in UTF-8 byte length; the captured chunks are an initial segment of the
delivered chunks (the chunk that pushes the running count over the limit
is dropped, not appended), and the supervisor's returned stdout obeys
the same byte bound. -/
theorem C10_captured_bounded (maxOutputBytes : Nat) (chunks : List String) :
    utf8Len (String.join (readerLoop maxOutputBytes chunks 0).1) ≤ maxOutputBytes ∧
    (readerLoop maxOutputBytes chunks 0).1 <+: chunks ∧
    (∀ (stdoutChunks stderrChunks : List String) (c : Int) (res : CompletedProcess),
      _run_with_output_limit stdoutChunks stderrChunks (WaitResult.exited c) maxOutputBytes =
        Except.ok res → utf8Len res.stdout ≤ maxOutputBytes) := by
  refine ⟨?_, readerLoop_prefix maxOutputBytes chunks 0, ?_⟩
  · rw [utf8Len_join]
    simpa using readerLoop_bytes maxOutputBytes chunks 0 (Nat.zero_le _)
  · intro so se c res h
    rw [rwol_exited] at h
    split_ifs at h with hex
    · cases h
      rw [utf8Len_join]
      simpa using readerLoop_bytes maxOutputBytes so 0 (Nat.zero_le _)
    · cases h
      rw [utf8Len_join]
      simpa using readerLoop_bytes maxOutputBytes so 0 (Nat.zero_le _)

/-- C10 witness: with a 6-byte ceiling and stdout chunks of 4 bytes
each, the second chunk is dropped and the returned stdout is 4 bytes. -/
theorem C10_captured_bounded_witness :
    utf8Len (CompletedProcess.mk 137 "aaaa" "Output limit exceeded").stdout ≤ 6 :=
  (C10_captured_bounded 6 ["aaaa", "bbbb"]).2.2 ["aaaa", "bbbb"] [] 0
    (CompletedProcess.mk 137 "aaaa" "Output limit exceeded") (by rfl)

/-- C5: whenever a drain loop set the exceeded flag and the child was
successfully waited on, the supervisor returns the synthetic outcome:
return code 137 and stderr exactly "Output limit exceeded", regardless
of the child's real exit code and of the stderr chunks. -/
theorem C5_synthetic_outcome (stdoutChunks stderrChunks : List String) (c : Int)
    (maxOutputBytes : Nat)
    (h : (readerLoop maxOutputBytes stdoutChunks 0).2 = true ∨
         (readerLoop maxOutputBytes stderrChunks 0).2 = true) :
    _run_with_output_limit stdoutChunks stderrChunks (WaitResult.exited c) maxOutputBytes =
      Except.ok ⟨137, String.join (readerLoop maxOutputBytes stdoutChunks 0).1,
        "Output limit exceeded"⟩ := by
  rw [rwol_exited]
  rcases h with h | h <;> simp [h]

/-- C5 witness: a single over-limit stdout chunk triggers the synthetic
137 outcome even though the child exited 0 and wrote no stderr. -/
theorem C5_synthetic_outcome_witness :
    _run_with_output_limit ["abcd"] [] (WaitResult.exited 0) 3 =
      Except.ok ⟨137, String.join (readerLoop 3 ["abcd"] 0).1, "Output limit exceeded"⟩ :=
  C5_synthetic_outcome ["abcd"] [] 0 3 (Or.inl (by decide))

theorem runLoop_closed (tm : Int) (outs : Nat → RunOutcome) :
    ∀ (cs : List TestCase) (j : Nat) (acc : Agg),
      runLoop tm outs j acc cs =
        { passed := acc.passed + (stepsOf tm outs j cs).countP (fun s => s.isPassed),
          failed := acc.failed + (stepsOf tm outs j cs).countP (fun s => !s.isPassed),
          total_points := acc.total_points + ((stepsOf tm outs j cs).map CaseStep.pointsVal).sum,
          earned_points := acc.earned_points +
            ((stepsOf tm outs j cs).map (fun s => if s.isPassed then s.pointsVal else 0)).sum,
          errors := acc.errors ++ (stepsOf tm outs j cs).filterMap CaseStep.errMsg,
          test_results := acc.test_results ++ (stepsOf tm outs j cs).map CaseStep.result } := by
  intro cs
  induction cs with
  | nil =>
    intro j acc
    simp [runLoop, stepsOf]
  | cons c rest ih =>
    intro j acc
    rw [runLoop, stepsOf, ih]
    simp only [applyStep, List.countP_cons, List.map_cons, List.sum_cons,
      List.filterMap_cons, Agg.mk.injEq]
    cases hp : (processCase tm (j + 1) c (outs j)).isPassed <;>
      cases hm : (processCase tm (j + 1) c (outs j)).errMsg <;>
        simp [hp, hm, Option.toList] <;>
          (constructor <;> omega)

theorem stepsOf_length (tm : Int) (outs : Nat → RunOutcome) :
    ∀ (cs : List TestCase) (j : Nat), (stepsOf tm outs j cs).length = cs.length
  | [], _ => rfl
  | _ :: rest, j => by
    rw [stepsOf, List.length_cons, List.length_cons, stepsOf_length tm outs rest (j + 1)]

theorem processCase_pointsVal (tm : Int) (i : Nat) (c : TestCase) (o : RunOutcome) :
    (processCase tm i c o).pointsVal = c.points.getD 1 := by
  unfold processCase
  cases o <;> first
    | rfl
    | (simp only []
       split_ifs <;> rfl)

theorem stepsOf_map_pointsVal (tm : Int) (outs : Nat → RunOutcome) :
    ∀ (cs : List TestCase) (j : Nat),
      (stepsOf tm outs j cs).map CaseStep.pointsVal =
        cs.map (fun c => c.points.getD 1)
  | [], _ => rfl
  | c :: rest, j => by
    rw [stepsOf, List.map_cons, List.map_cons, processCase_pointsVal,
      stepsOf_map_pointsVal tm outs rest (j + 1)]

theorem stepsOf_mem_pointsVal (tm : Int) (outs : Nat → RunOutcome) :
    ∀ (cs : List TestCase) (j : Nat) (st : CaseStep), st ∈ stepsOf tm outs j cs →
      ∃ c, c ∈ cs ∧ st.pointsVal = c.points.getD 1
  | [], _, st, h => by simp [stepsOf] at h
  | c :: rest, j, st, h => by
    rw [stepsOf] at h
    rcases List.mem_cons.mp h with rfl | h2
    · exact ⟨c, List.mem_cons_self c rest, processCase_pointsVal tm (j + 1) c (outs j)⟩
    · obtain ⟨c2, hc2, he⟩ := stepsOf_mem_pointsVal tm outs rest (j + 1) st h2
      exact ⟨c2, List.mem_cons_of_mem c hc2, he⟩

theorem stepsOf_getElem? (tm : Int) (outs : Nat → RunOutcome) :
    ∀ (cs : List TestCase) (j i : Nat),
      (stepsOf tm outs j cs)[i]? =
        (cs[i]?).map (fun c => processCase tm (j + i + 1) c (outs (j + i)))
  | [], _, i => by simp [stepsOf]
  | c :: rest, j, 0 => by simp [stepsOf]
  | c :: rest, j, i + 1 => by
    rw [stepsOf, List.getElem?_cons_succ, List.getElem?_cons_succ,
      stepsOf_getElem? tm outs rest (j + 1) i]
    have h1 : j + 1 + i = j + (i + 1) := by omega
    rw [h1]

/-- The per-case loop path of `run_code_tests`, in closed form. -/
theorem run_code_tests_cases (code : String) (language : Language) (c0 : TestCase)
    (rest : List TestCase) (tm : Int) (eqc : Bool) (sm : SecurityMode)
    (outs : Nat → RunOutcome)
    (hg : securityGate code language eqc sm = false) :
    run_code_tests code language (c0 :: rest) tm eqc sm outs =
      { passed := (stepsOf tm outs 0 (c0 :: rest)).countP (fun s => s.isPassed),
        failed := (stepsOf tm outs 0 (c0 :: rest)).countP (fun s => !s.isPassed),
        total_points := ((stepsOf tm outs 0 (c0 :: rest)).map CaseStep.pointsVal).sum,
        earned_points := ((stepsOf tm outs 0 (c0 :: rest)).map
          (fun s => if s.isPassed then s.pointsVal else 0)).sum,
        errors := (stepsOf tm outs 0 (c0 :: rest)).filterMap CaseStep.errMsg,
        warnings := if eqc then _check_code_quality code language else [],
        test_results := (stepsOf tm outs 0 (c0 :: rest)).map CaseStep.result } := by
  unfold run_code_tests
  rw [hg]
  simp only [Bool.false_eq_true, if_false]
  rw [runLoop_closed]
  simp

theorem run_code_tests_blocked (code : String) (language : Language)
    (cases : List TestCase) (tm : Int) (eqc : Bool) (sm : SecurityMode)
    (outs : Nat → RunOutcome)
    (hg : securityGate code language eqc sm = true) :
    run_code_tests code language cases tm eqc sm outs =
      { passed := 0, failed := 0, total_points := 0, earned_points := 0,
        errors := ["Blocked by security policy"],
        warnings := if eqc then _check_code_quality code language else [],
        test_results := [] } := by
  unfold run_code_tests
  rw [hg]
  simp

theorem run_code_tests_nil (code : String) (language : Language) (tm : Int)
    (eqc : Bool) (sm : SecurityMode) (outs : Nat → RunOutcome)
    (hg : securityGate code language eqc sm = false) :
    run_code_tests code language [] tm eqc sm outs =
      runOnce (if eqc then _check_code_quality code language else []) (outs 0) := by
  unfold run_code_tests
  rw [hg]
  simp

theorem runOnce_facts (warnings : List String) (o : RunOutcome) :
    (runOnce warnings o).passed + (runOnce warnings o).failed =
      (runOnce warnings o).test_results.length ∧
    (runOnce warnings o).earned_points ≤ (runOnce warnings o).total_points ∧
    (runOnce warnings o).total_points = 1 := by
  cases o <;> (simp [runOnce]; try (split_ifs <;> simp))

theorem countP_isPassed_split (steps : List CaseStep) :
    steps.countP (fun s => s.isPassed) + steps.countP (fun s => !s.isPassed) =
      steps.length := by
  induction steps with
  | nil => rfl
  | cons s t ih =>
    rw [List.countP_cons, List.countP_cons, List.length_cons]
    cases hp : s.isPassed <;> simp [hp] <;> omega

theorem check_quality_java (code : String) :
    _check_code_quality code Language.java = [] := by
  unfold _check_code_quality
  simp

theorem securityGate_java (code : String) (eqc : Bool) (sm : SecurityMode) :
    securityGate code Language.java eqc sm = false := by
  unfold securityGate
  cases eqc <;> cases sm <;> simp [check_quality_java]

theorem securityGate_python_import_os (code : String)
    (h : isSubstring "import os" code = true) :
    securityGate code Language.python true SecurityMode.block = true := by
  unfold securityGate
  rw [if_pos rfl, if_pos rfl, List.any_eq_true]
  refine ⟨"Warning: Potentially unsafe imports detected", ?_, by decide⟩
  unfold _check_code_quality
  rw [if_pos rfl, h]
  simp

theorem processCase_raised (tm : Int) (i : Nat) (c : TestCase) (m : String) :
    processCase tm i c (RunOutcome.raised m) =
      { result :=
          { status := "error", case_number := some i,
            description := some (c.description.getD ("Test case " ++ toString i)),
            points := some (c.points.getD 1), error := some (m.take 500) },
        isPassed := false, pointsVal := c.points.getD 1,
        errMsg := some ("Case " ++ toString i ++ " (" ++
          c.description.getD ("Test case " ++ toString i) ++ "): " ++ m.take 500) } := rfl

theorem processCase_runtime_error (tm : Int) (i : Nat) (c : TestCase) (rc : Int)
    (out err : String) (hrc : ¬ rc = 0) :
    processCase tm i c (RunOutcome.completed rc out err) =
      { result :=
          { status := "runtime_error", case_number := some i,
            description := some (c.description.getD ("Test case " ++ toString i)),
            points := some (c.points.getD 1),
            error := some (if pyStrip (pyOr err (pyOr out "")) = "" then "Runtime error"
              else (pyStrip (pyOr err (pyOr out ""))).take 500),
            stderr := if err = "" then none else some (err.take 500) },
        isPassed := false, pointsVal := c.points.getD 1,
        errMsg := some ("Case " ++ toString i ++ " (" ++
          c.description.getD ("Test case " ++ toString i) ++ "): " ++
          (if pyStrip (pyOr err (pyOr out "")) = "" then "Runtime error"
            else (pyStrip (pyOr err (pyOr out ""))).take 500)) } := by
  unfold processCase
  simp only []
  rw [if_neg hrc]

theorem stepsOf_raised_facts (tm : Int) (m : String) (outs : Nat → RunOutcome)
    (houts : ∀ j, outs j = RunOutcome.raised m) :
    ∀ (cs : List TestCase) (j : Nat),
      ((stepsOf tm outs j cs).countP (fun s => s.isPassed) = 0) ∧
      ((stepsOf tm outs j cs).countP (fun s => !s.isPassed) = cs.length) ∧
      (∀ st ∈ stepsOf tm outs j cs, st.result.status = "error" ∧
        st.result.error = some (m.take 500))
  | [], j => by simp [stepsOf]
  | c :: rest, j => by
    obtain ⟨h1, h2, h3⟩ := stepsOf_raised_facts tm m outs houts rest (j + 1)
    rw [stepsOf, houts j]
    refine ⟨?_, ?_, ?_⟩
    · rw [List.countP_cons, h1, processCase_raised]
      simp
    · rw [List.countP_cons, h2, List.length_cons, processCase_raised]
      simp
    · intro st hst
      rcases List.mem_cons.mp hst with rfl | h4
      · exact ⟨rfl, rfl⟩
      · exact h3 st h4

/-- C1 counterexample: with two supplied test cases and a failing Java
compilation, the report contains TWO per-case results of status "error"
and `failed = 2` — not a single aggregate failure recorded once for the
whole submission, and the per-case loop did run. -/
theorem C1_counterexample :
    ((run_code_tests "public class Main" Language.java [sampleCase "a", sampleCase "b"]
      2000 true SecurityMode.warn
      (fun _ => _run_java_code 1 "javac: error" (RunOutcome.completed 0 "" ""))).test_results.length
        = 2) ∧
    ((run_code_tests "public class Main" Language.java [sampleCase "a", sampleCase "b"]
      2000 true SecurityMode.warn
      (fun _ => _run_java_code 1 "javac: error" (RunOutcome.completed 0 "" ""))).failed = 2) ∧
    (∀ r ∈ (run_code_tests "public class Main" Language.java [sampleCase "a", sampleCase "b"]
      2000 true SecurityMode.warn
      (fun _ => _run_java_code 1 "javac: error" (RunOutcome.completed 0 "" ""))).test_results,
      r.status = "error") := by
  refine ⟨by decide, by decide, by decide⟩

/-- C1 amended: a non-zero Java compiler exit raises
`RuntimeError("Compilation failed: ...")`, but the harness catches it
inside the per-case loop, so the evaluation does NOT short-circuit:
every supplied test case is recorded as its own status-"error" result
carrying the (truncated) compilation message, with `passed = 0` and
`failed` equal to the number of cases.  Only when no test cases are
supplied is the failure reported once. -/
theorem C1_amended_java_per_case (code : String) (cases : List TestCase) (tm : Int)
    (eqc : Bool) (sm : SecurityMode) (crc : Int) (cerr : String)
    (runs : Nat → RunOutcome)
    (hne : cases ≠ [])
    (hrc : ¬ crc = 0) :
    ((run_code_tests code Language.java cases tm eqc sm
        (fun j => _run_java_code crc cerr (runs j))).passed = 0) ∧
    ((run_code_tests code Language.java cases tm eqc sm
        (fun j => _run_java_code crc cerr (runs j))).failed = cases.length) ∧
    ((run_code_tests code Language.java cases tm eqc sm
        (fun j => _run_java_code crc cerr (runs j))).test_results.length = cases.length) ∧
    (∀ r ∈ (run_code_tests code Language.java cases tm eqc sm
        (fun j => _run_java_code crc cerr (runs j))).test_results,
      r.status = "error" ∧
      r.error = some (("Compilation failed: " ++ cerr).take 500)) := by
  cases cases with
  | nil => exact absurd rfl hne
  | cons c0 rest =>
    have houts : ∀ j, (fun j => _run_java_code crc cerr (runs j)) j =
        RunOutcome.raised ("Compilation failed: " ++ cerr) := by
      intro j
      show _run_java_code crc cerr (runs j) = _
      unfold _run_java_code
      rw [if_neg hrc]
    rw [run_code_tests_cases _ _ _ _ _ _ _ _ (securityGate_java code eqc sm)]
    obtain ⟨h1, h2, h3⟩ :=
      stepsOf_raised_facts tm ("Compilation failed: " ++ cerr) _ houts (c0 :: rest) 0
    refine ⟨h1, h2, ?_, ?_⟩
    · rw [List.length_map, stepsOf_length]
    · intro r hr
      rw [List.mem_map] at hr
      obtain ⟨st, hst, rfl⟩ := hr
      exact h3 st hst

/-- C1 witness: two concrete cases, compiler exit 1 — both results are
"error" with the compilation message. -/
theorem C1_amended_java_per_case_witness :
    ((run_code_tests "public class Main" Language.java [sampleCase "a", sampleCase "b"]
        2000 true SecurityMode.warn
        (fun _ => _run_java_code 1 "boom" (RunOutcome.completed 0 "" ""))).passed = 0) ∧
    ((run_code_tests "public class Main" Language.java [sampleCase "a", sampleCase "b"]
        2000 true SecurityMode.warn
        (fun _ => _run_java_code 1 "boom" (RunOutcome.completed 0 "" ""))).failed =
      [sampleCase "a", sampleCase "b"].length) ∧
    ((run_code_tests "public class Main" Language.java [sampleCase "a", sampleCase "b"]
        2000 true SecurityMode.warn
        (fun _ => _run_java_code 1 "boom" (RunOutcome.completed 0 "" ""))).test_results.length =
      [sampleCase "a", sampleCase "b"].length) ∧
    (∀ r ∈ (run_code_tests "public class Main" Language.java [sampleCase "a", sampleCase "b"]
        2000 true SecurityMode.warn
        (fun _ => _run_java_code 1 "boom" (RunOutcome.completed 0 "" ""))).test_results,
      r.status = "error" ∧
      r.error = some (("Compilation failed: " ++ "boom").take 500)) :=
  C1_amended_java_per_case "public class Main" [sampleCase "a", sampleCase "b"] 2000 true
    SecurityMode.warn 1 "boom" (fun _ => RunOutcome.completed 0 "" "")
    (by decide) (by decide)

/-- C2 counterexample: with no test cases supplied (and a successful
run-once execution), the report's `total_points` is 1 — the single
pseudo-case — while the sum of the points of all supplied test cases is
the empty sum 0, contradicting the claim on the no-test-cases paths. -/
theorem C2_counterexample :
    ((run_code_tests "print(1)" Language.python [] 2000 true SecurityMode.warn
      (fun _ => RunOutcome.completed 0 "1" "")).total_points = 1) ∧
    ((([] : List TestCase).map (fun c => c.points.getD 1)).sum = 0) := by
  refine ⟨by decide, rfl⟩

/-- C2 amended: `passed + failed = len(test_results)` holds for every
report; `earned_points ≤ total_points` holds whenever the supplied
points are nonnegative; `total_points = Σ(points)` (points defaulting
to 1) holds when test cases were supplied and the security gate did not
short-circuit; but when NO test cases were supplied the run-once paths
report `total_points = 1` (one pseudo-case), not the empty sum 0. -/
theorem C2_amended_report_invariants (code : String) (language : Language)
    (cases : List TestCase) (tm : Int) (eqc : Bool) (sm : SecurityMode)
    (outs : Nat → RunOutcome) :
    ((run_code_tests code language cases tm eqc sm outs).passed +
      (run_code_tests code language cases tm eqc sm outs).failed =
      (run_code_tests code language cases tm eqc sm outs).test_results.length) ∧
    ((∀ c ∈ cases, 0 ≤ c.points.getD 1) →
      (run_code_tests code language cases tm eqc sm outs).earned_points ≤
      (run_code_tests code language cases tm eqc sm outs).total_points) ∧
    (cases ≠ [] → securityGate code language eqc sm = false →
      (run_code_tests code language cases tm eqc sm outs).total_points =
        (cases.map (fun c => c.points.getD 1)).sum) ∧
    (cases = [] → securityGate code language eqc sm = false →
      (run_code_tests code language cases tm eqc sm outs).total_points = 1) := by
  by_cases hg : securityGate code language eqc sm = true
  · rw [run_code_tests_blocked code language cases tm eqc sm outs hg]
    refine ⟨rfl, fun _ => le_refl 0, fun _ hgf => ?_, fun _ hgf => ?_⟩ <;>
      (rw [hgf] at hg; exact Bool.noConfusion hg)
  · have hgf : securityGate code language eqc sm = false := by
      revert hg
      cases securityGate code language eqc sm <;> simp
    cases cases with
    | nil =>
      rw [run_code_tests_nil code language tm eqc sm outs hgf]
      obtain ⟨f1, f2, f3⟩ := runOnce_facts
        (if eqc then _check_code_quality code language else []) (outs 0)
      exact ⟨f1, fun _ => f2, fun hne _ => absurd rfl hne, fun _ _ => f3⟩
    | cons c0 rest =>
      rw [run_code_tests_cases _ _ _ _ _ _ _ _ hgf]
      refine ⟨?_, ?_, ?_, ?_⟩
      · rw [List.length_map]
        exact countP_isPassed_split _
      · intro hp
        apply List.sum_le_sum
        intro st hst
        obtain ⟨c, hc, he⟩ := stepsOf_mem_pointsVal tm outs (c0 :: rest) 0 st hst
        have h0 : 0 ≤ st.pointsVal := he ▸ hp c hc
        cases hip : st.isPassed <;> simp [hip, h0]
      · intro _ _
        rw [stepsOf_map_pointsVal]
      · intro hnil _
        exact absurd hnil (List.cons_ne_nil c0 rest)

/-- C2 witness: one passing case with default points — earned ≤ total
and total equals the supplied sum; with no cases, total is 1. -/
theorem C2_amended_report_invariants_witness :
    ((run_code_tests "print(1)" Language.python [sampleCase "ok"] 2000 true SecurityMode.warn
      (fun _ => RunOutcome.completed 0 "ok" "")).earned_points ≤
      (run_code_tests "print(1)" Language.python [sampleCase "ok"] 2000 true SecurityMode.warn
      (fun _ => RunOutcome.completed 0 "ok" "")).total_points) ∧
    ((run_code_tests "print(1)" Language.python [sampleCase "ok"] 2000 true SecurityMode.warn
      (fun _ => RunOutcome.completed 0 "ok" "")).total_points =
      ([sampleCase "ok"].map (fun c => c.points.getD 1)).sum) ∧
    ((run_code_tests "print(1)" Language.python [] 2000 true SecurityMode.warn
      (fun _ => RunOutcome.completed 0 "1" "")).total_points = 1) := by
  refine ⟨?_, ?_, ?_⟩
  · exact (C2_amended_report_invariants "print(1)" Language.python [sampleCase "ok"] 2000 true
      SecurityMode.warn (fun _ => RunOutcome.completed 0 "ok" "")).2.1 (by decide)
  · exact (C2_amended_report_invariants "print(1)" Language.python [sampleCase "ok"] 2000 true
      SecurityMode.warn (fun _ => RunOutcome.completed 0 "ok" "")).2.2.1 (by decide) (by decide)
  · exact (C2_amended_report_invariants "print(1)" Language.python [] 2000 true
      SecurityMode.warn (fun _ => RunOutcome.completed 0 "1" "")).2.2.2 rfl (by decide)

/-- C3 counterexample: a JAVASCRIPT submission whose code contains
"import os", evaluated with security_mode = block, is NOT blocked — the
quality checker only inspects Python code — so the report records a
pass and carries no security error, contradicting the claim for
non-Python submissions. -/
theorem C3_counterexample :
    (isSubstring "import os" "import os" = true) ∧
    ((run_code_tests "import os" Language.javascript [sampleCase "ok"] 2000 true
      SecurityMode.block (fun _ => RunOutcome.completed 0 "ok" "")).passed = 1) ∧
    ((run_code_tests "import os" Language.javascript [sampleCase "ok"] 2000 true
      SecurityMode.block (fun _ => RunOutcome.completed 0 "ok" "")).errors = []) := by
  refine ⟨by decide, by decide, by decide⟩

/-- C3 amended: for every PYTHON submission evaluated with quality
checks enabled (the default) and security_mode = block whose code
contains "import os", the report has passed = 0, failed = 0, errors =
["Blocked by security policy"] and no test results, and the report is
independent of the runner oracle — no process outcome is consulted, the
model of "no child process is spawned".  Submissions in other languages
are not blocked, since the quality checker returns no warnings for
them. -/
theorem C3_amended_python_block (code : String) (cases : List TestCase) (tm : Int)
    (outs outs2 : Nat → RunOutcome)
    (h : isSubstring "import os" code = true) :
    (run_code_tests code Language.python cases tm true SecurityMode.block outs =
      run_code_tests code Language.python cases tm true SecurityMode.block outs2) ∧
    ((run_code_tests code Language.python cases tm true SecurityMode.block outs).passed = 0) ∧
    ((run_code_tests code Language.python cases tm true SecurityMode.block outs).failed = 0) ∧
    ((run_code_tests code Language.python cases tm true SecurityMode.block outs).errors =
      ["Blocked by security policy"]) ∧
    ((run_code_tests code Language.python cases tm true
      SecurityMode.block outs).test_results = []) := by
  have hg := securityGate_python_import_os code h
  rw [run_code_tests_blocked _ _ _ _ _ _ outs hg,
    run_code_tests_blocked _ _ _ _ _ _ outs2 hg]
  exact ⟨rfl, rfl, rfl, rfl, rfl⟩

/-- C3 witness: the concrete blocked submission, with two different
oracles (one of which would time out) producing identical reports. -/
theorem C3_amended_python_block_witness :
    (run_code_tests "import os" Language.python [sampleCase "ok"] 2000 true SecurityMode.block
        (fun _ => RunOutcome.completed 0 "ok" "") =
      run_code_tests "import os" Language.python [sampleCase "ok"] 2000 true SecurityMode.block
        (fun _ => RunOutcome.timedOut)) ∧
    ((run_code_tests "import os" Language.python [sampleCase "ok"] 2000 true SecurityMode.block
        (fun _ => RunOutcome.completed 0 "ok" "")).passed = 0) ∧
    ((run_code_tests "import os" Language.python [sampleCase "ok"] 2000 true SecurityMode.block
        (fun _ => RunOutcome.completed 0 "ok" "")).failed = 0) ∧
    ((run_code_tests "import os" Language.python [sampleCase "ok"] 2000 true SecurityMode.block
        (fun _ => RunOutcome.completed 0 "ok" "")).errors = ["Blocked by security policy"]) ∧
    ((run_code_tests "import os" Language.python [sampleCase "ok"] 2000 true SecurityMode.block
        (fun _ => RunOutcome.completed 0 "ok" "")).test_results = []) :=
  C3_amended_python_block "import os" [sampleCase "ok"] 2000
    (fun _ => RunOutcome.completed 0 "ok" "") (fun _ => RunOutcome.timedOut) (by decide)

/-- C8: every test case whose execution completes with a non-zero return
code is recorded with status "runtime_error"; its error message is the
stripped stderr, falling back to stdout when stderr is empty (with a
"Runtime error" placeholder when both strip to empty), truncated to 500
characters. -/
theorem C8_runtime_error_case (code : String) (language : Language)
    (cases : List TestCase) (tm : Int) (eqc : Bool) (sm : SecurityMode)
    (outs : Nat → RunOutcome) (i : Nat) (c : TestCase) (rc : Int) (out err : String)
    (hg : securityGate code language eqc sm = false)
    (hi : cases[i]? = some c)
    (ho : outs i = RunOutcome.completed rc out err)
    (hrc : ¬ rc = 0) :
    (run_code_tests code language cases tm eqc sm outs).test_results[i]? =
      some { status := "runtime_error", case_number := some (i + 1),
             description := some (c.description.getD ("Test case " ++ toString (i + 1))),
             points := some (c.points.getD 1),
             error := some (if pyStrip (pyOr err (pyOr out "")) = "" then "Runtime error"
               else (pyStrip (pyOr err (pyOr out ""))).take 500),
             stderr := if err = "" then none else some (err.take 500) } := by
  cases cases with
  | nil => simp at hi
  | cons c0 rest =>
    rw [run_code_tests_cases _ _ _ _ _ _ _ _ hg]
    show (List.map CaseStep.result (stepsOf tm outs 0 (c0 :: rest)))[i]? = _
    rw [List.getElem?_map, stepsOf_getElem?, hi]
    simp only [Nat.zero_add, Option.map_some']
    rw [ho, processCase_runtime_error _ _ _ _ _ _ hrc]

/-- C8 witness: a concrete non-zero exit with stderr "boom". -/
theorem C8_runtime_error_case_witness :
    (run_code_tests "x" Language.python [sampleCase "ok"] 2000 true SecurityMode.warn
      (fun _ => RunOutcome.completed 1 "out" "boom")).test_results[0]? =
      some { status := "runtime_error", case_number := some (0 + 1),
             description := some ((sampleCase "ok").description.getD
               ("Test case " ++ toString (0 + 1))),
             points := some ((sampleCase "ok").points.getD 1),
             error := some (if pyStrip (pyOr "boom" (pyOr "out" "")) = "" then "Runtime error"
               else (pyStrip (pyOr "boom" (pyOr "out" ""))).take 500),
             stderr := if "boom" = "" then none else some ("boom".take 500) } :=
  C8_runtime_error_case "x" Language.python [sampleCase "ok"] 2000 true SecurityMode.warn
    (fun _ => RunOutcome.completed 1 "out" "boom") 0 (sampleCase "ok") 1 "out" "boom"
    (by decide) rfl rfl (by decide)

end CodeRunner
